import Mathlib

/-!
Verification of the Connect Four relay server (`src/app.py`) against its
natural-language specification.

The file shallowly embeds the server's data model and operations:

* `replaySends` embeds `replay` (app.py lines 41-57);
* `playStep` and `sessionRun` embed the dispatch loop `play` (lines 60-94);
* `hostRun`, `joinPathConnected`, `watchPathConnected`, `joinPathRegs`,
  `watchPathRegs` embed `start` / `join` / `watch` (lines 97-182);
* `Registry` embeds the global dicts `JOIN` / `WATCH` and the Python `dict`
  operations used on them (`d[k] = v`, `d[k]`, `del d[k]`);
* `token_urlsafe` embeds `secrets.token_urlsafe` (base64url over random
  bytes, used with `nbytes = 12` at lines 107 and 110);
* `handlerDispatch` and `callOutcome` embed the dispatch in `handler`
  (lines 199-217) together with Python positional-call arity checking;
* `Connect4.playMove` models the game engine (`connect4.py`, which is not
  part of the sources) from the specification's interface description.

Machine-level concerns (the asyncio scheduler, real sockets, SMTP traffic)
are represented by explicit outcome parameters; everything the claims
depend on - which events are sent to which connection, in which order, and
which exceptions propagate - is computed by the definitions below.
-/

namespace Connect4Server

/-- The two player roles, `PLAYER1` and `PLAYER2` of connect4. -/
inductive Player where
  | P1
  | P2
deriving DecidableEq, Repr

/-- The player moving after `p`. -/
def Player.other : Player → Player
  | .P1 => .P2
  | .P2 => .P1

/-- One entry of the game history: `(player, column, row)`. -/
structure Move where
  player : Player
  column : Nat
  row : Nat
deriving DecidableEq, Repr

/-- Outbound JSON events of app.py: init, play, win and error messages. -/
inductive Event where
  | initEvt (joinTok watchTok : String)
  | play (player : Player) (column row : Nat)
  | win (player : Player)
  | error (message : String)
deriving DecidableEq, Repr

/-- The "play" event built from a history move, as in `replay` and `play`. -/
def Move.toPlayEvent (m : Move) : Event :=
  .play m.player m.column m.row

/-- Whether an event is a "play" event. -/
def Event.isPlay : Event → Bool
  | .play _ _ _ => true
  | _ => false

/-- Connections (websockets) are identified by opaque ids. -/
abbrev ConnId := Nat

/-- A send targeted at one connection: `(recipient, event)`. -/
abbrev Send := ConnId × Event

/-- The sequence of events a given connection receives from a list of
targeted sends, in order. -/
def eventsTo (c : ConnId) (out : List Send) : List Event :=
  (out.filter (fun p => p.1 = c)).map Prod.snd

/-- Embedding of `websockets.broadcast(connected, ...)`: the event is sent
to every connection currently in the set. -/
def broadcast (connected : List ConnId) (e : Event) : List Send :=
  connected.map (fun c => (c, e))

/-- Embedding of `replay` (app.py 41-57): iterates over a snapshot copy of
`game.moves` taken when replay begins and sends each move as a "play"
event to the one given websocket. -/
def replaySends (ws : ConnId) (snapshot : List Move) : List Send :=
  snapshot.map (fun m => (ws, m.toPlayEvent))

/-- Modelled from the spec: the Game State Machine (`connect4.py`, not in
the sources) holds a sequential log of `(player, column, row)` moves and a
`winner` that is `none` until a terminal condition is reached. -/
structure Connect4 where
  moves : List Move
  winner : Option Player
deriving DecidableEq, Repr

/-- A fresh game, as created by `Connect4()` in `start`. -/
def Connect4.new : Connect4 :=
  { moves := [], winner := none }

/-- The player whose turn it is: `P1` first, then alternating. -/
def Connect4.turn (g : Connect4) : Player :=
  match g.moves.getLast? with
  | none => .P1
  | some m => m.player.other

/-- Number of pieces already in column `c`; an accepted move lands at this
row. -/
def Connect4.columnHeight (g : Connect4) (c : Nat) : Nat :=
  (g.moves.filter (fun m => m.column = c)).length

/-- Modelled from the spec: `apply_move(player, column) -> row | MoveError`.
The spec fixes the rejection conditions - wrong turn, full or invalid
column (7 columns, 6 rows), or the game already has a winner - and says an
accepted move is appended to the history with its landing row. Terminal
detection is opaque to the broker, so it is a parameter `detectWin`. -/
def Connect4.playMove (detectWin : List Move → Option Player) (g : Connect4)
    (player : Player) (column : Nat) : Except String (Nat × Connect4) :=
  if g.winner.isSome then
    .error "The game is over."
  else if player ≠ g.turn then
    .error "It is not your turn."
  else if 7 ≤ column then
    .error "Invalid column."
  else if 6 ≤ g.columnHeight column then
    .error "This slot is full."
  else
    let row := g.columnHeight column
    let moves := g.moves ++ [⟨player, column, row⟩]
    .ok (row, { moves := moves, winner := detectWin moves })

/-- The spec's rejection conditions for a move submission: wrong turn,
full or invalid column, or the game already won. -/
def rejectionCondition (g : Connect4) (player : Player) (column : Nat) : Prop :=
  g.winner.isSome ∨ player ≠ g.turn ∨ 7 ≤ column ∨ 6 ≤ g.columnHeight column

instance (g : Connect4) (player : Player) (column : Nat) :
    Decidable (rejectionCondition g player column) := by
  unfold rejectionCondition; infer_instance

/-- The broker treats the game as opaque: any function of this shape can
stand for `game.play`. -/
abbrev ApplyFn := Connect4 → Player → Nat → Except String (Nat × Connect4)

/-- An inbound client message, after the transport delivered its text:
either text that `json.loads` rejects, or a parsed object with a `type`
field and an optional `column` field. -/
inductive ClientMsg where
  | invalidJson
  | event (ty : String) (column : Option Nat)
deriving DecidableEq, Repr

/-- Result of processing one inbound message in the dispatch loop: either
the loop continues with a new game state after emitting some sends, or an
uncaught exception ends this connection's handling. -/
inductive StepResult where
  | cont (g : Connect4) (sent : List Send)
  | crash (g : Connect4) (exn : String)
deriving DecidableEq, Repr

/-- Embedding of one iteration of `play` (app.py 65-94). `json.loads`
failures and the `assert event["type"] == "play"` failure are uncaught;
a `RuntimeError` from `game.play` is answered with a private "error"
event and the loop continues; an accepted move is broadcast as a "play"
event to every connection in `connected`, followed by a "win" broadcast
when the game now has a winner. -/
def playStep (applyFn : ApplyFn) (g : Connect4) (player : Player)
    (connected : List ConnId) (self : ConnId) : ClientMsg → StepResult
  | .invalidJson => .crash g "json.JSONDecodeError"
  | .event ty col =>
    if ty ≠ "play" then
      .crash g "AssertionError"
    else
      match col with
      | none => .crash g "KeyError"
      | some column =>
        match applyFn g player column with
        | .error msg => .cont g [(self, .error msg)]
        | .ok (row, g') =>
          let sent := broadcast connected (.play player column row)
          let sent :=
            match g'.winner with
            | some w => sent ++ broadcast connected (.win w)
            | none => sent
          .cont g' sent

/-- A move submission as read by one player's dispatch loop: which
connection submitted, as which role, and the requested column. -/
structure Submission where
  conn : ConnId
  role : Player
  column : Nat
deriving DecidableEq, Repr

/-- The serialized processing of a sequence of move submissions on one
session: each is handled by `playStep` as a well-formed "play" message,
with the connection set fixed for the whole sequence. Returns the final
game and all sends in emission order. -/
def sessionRun (applyFn : ApplyFn) (connected : List ConnId) :
    Connect4 → List Submission → Connect4 × List Send
  | g, [] => (g, [])
  | g, s :: rest =>
    match playStep applyFn g s.role connected s.conn (.event "play" (some s.column)) with
    | .cont g' sent =>
      let r := sessionRun applyFn connected g' rest
      (r.1, sent ++ r.2)
    | .crash g' _ => (g', [])

/-- The moves accepted by the game along a submission sequence, with the
row each one landed in, in acceptance order. -/
def acceptedMoves (applyFn : ApplyFn) :
    Connect4 → List Submission → List Move
  | _, [] => []
  | g, s :: rest =>
    match applyFn g s.role s.column with
    | .error _ => acceptedMoves applyFn g rest
    | .ok (row, g') => ⟨s.role, s.column, row⟩ :: acceptedMoves applyFn g' rest

/-- Embedding of the global dicts `JOIN` and `WATCH` (app.py 17, 19):
token string to session reference (sessions identified by an id here).
Python dict keys are unique, so an association list with overwrite on
insert and filter on delete is extensionally faithful. -/
abbrev Registry := List (String × Nat)

/-- Embedding of `d[token]` lookup / resolution: the session bound to the
token, or `none` ("NotFound", surfacing as `KeyError` in app.py). -/
def Registry.resolve (r : Registry) (t : String) : Option Nat :=
  (r.find? (fun p => p.1 = t)).map Prod.snd

/-- Embedding of `d[token] = session`: bind the token, overwriting any
previous binding. -/
def Registry.insert (r : Registry) (t : String) (v : Nat) : Registry :=
  (t, v) :: r.filter (fun p => p.1 ≠ t)

/-- Embedding of `del d[token]` (app.py 129-130): removes the binding if
present; raises `KeyError` if the token is absent. -/
def Registry.del (r : Registry) (t : String) : Except String Registry :=
  if (r.resolve t).isSome then
    .ok (r.filter (fun p => p.1 ≠ t))
  else
    .error "KeyError"

/-- The pair of token registries of the broker. -/
structure Regs where
  joinReg : Registry
  watchReg : Registry
deriving DecidableEq, Repr

/-- How a connection's handling ends: the coroutine returns, or an
exception propagates out of it. -/
inductive RunResult where
  | normal
  | raised (exn : String)
deriving DecidableEq, Repr

/-- Embedding of `send_email` (app.py 186-196): it opens an SMTP
connection, logs in and sends; there is no exception handling anywhere in
it, so any SMTP failure raises out of the call. `smtpOk` says whether the
SMTP exchange succeeds. -/
def send_email (smtpOk : Bool) : Except String Unit :=
  if smtpOk then .ok () else .error "SMTPException"

/-- Embedding of the `finally` block of `start` (app.py 128-130):
`del JOIN[join_key]` then `del WATCH[watch_key]`, in that order; if the
first raises, the second never runs. -/
def hostCleanup (jk wk : String) (rs : Regs) : Except String Regs := do
  let j ← rs.joinReg.del jk
  let w ← rs.watchReg.del wk
  .ok ⟨j, w⟩

/-- End state of the host path: registries, the session's connection set
as `start` leaves it, and how the handling ended. -/
structure HostResult where
  regs : Regs
  connected : List ConnId
  result : RunResult
deriving DecidableEq, Repr

/-- Embedding of `start` (app.py 97-130): create a game and the set
`connected = {websocket}`, bind the fresh join and watch tokens in the
registries, then (inside `try`) send the "init" event, call `send_email`
- whose failure propagates, since there is no handler - and, if that
succeeded, run the dispatch loop until it ends with `loopOutcome`. The
`finally` block deletes both tokens whatever the body's outcome, and any
body exception keeps propagating afterwards. `start` never removes
`websocket` from `connected`. -/
def hostRun (ws : ConnId) (jk wk : String) (sid : Nat) (smtpOk : Bool)
    (loopOutcome : RunResult) (rs : Regs) : HostResult :=
  let connected : List ConnId := [ws]
  let rs1 : Regs := ⟨rs.joinReg.insert jk sid, rs.watchReg.insert wk sid⟩
  let body : RunResult :=
    match send_email smtpOk with
    | .error e => .raised e
    | .ok _ => loopOutcome
  match hostCleanup jk wk rs1 with
  | .ok rs2 => ⟨rs2, connected, body⟩
  | .error e => ⟨rs1, connected, .raised e⟩

/-- Embedding of the registry side of `join` (app.py 133-156): it only
reads `JOIN[join_key]` and never writes either registry. -/
def joinPathRegs (rs : Regs) (tok : String) : Regs × Option Nat :=
  (rs, rs.joinReg.resolve tok)

/-- Embedding of the registry side of `watch` (app.py 159-182): it only
reads `WATCH[watch_key]` and never writes either registry. -/
def watchPathRegs (rs : Regs) (tok : String) : Regs × Option Nat :=
  (rs, rs.watchReg.resolve tok)

/-- Python `set.add`: a no-op when the element is already present. -/
def pySetAdd (s : List ConnId) (c : ConnId) : List ConnId :=
  if c ∈ s then s else s ++ [c]

/-- Python `set.remove`: removes one occurrence (raises if absent, but in
`join` / `watch` the websocket was added just before the `try`). -/
def pySetRemove (s : List ConnId) (c : ConnId) : List ConnId :=
  s.erase c

/-- Connection-set effect of `join` after a successful resolve (app.py
146-156): `connected.add(websocket)`, then the body, then - in `finally`,
for any outcome - `connected.remove(websocket)`. Returns the set during
the body and the set after the handling ends. -/
def joinPathConnected (connected : List ConnId) (ws : ConnId)
    (outcome : RunResult) : List ConnId × List ConnId :=
  let during := pySetAdd connected ws
  match outcome with
  | _ => (during, pySetRemove during ws)

/-- Connection-set effect of `watch` after a successful resolve (app.py
172-182): same add / unconditional remove structure as `join`. -/
def watchPathConnected (connected : List ConnId) (ws : ConnId)
    (outcome : RunResult) : List ConnId × List ConnId :=
  let during := pySetAdd connected ws
  match outcome with
  | _ => (during, pySetRemove during ws)

/-- Signature of a Python `async def`: its positional parameters, none of
which has a default in app.py. -/
structure PyFunc where
  fname : String
  params : List String
deriving DecidableEq, Repr

/-- Signature of `start` (app.py 97): `start(websocket, email)`. -/
def start_sig : PyFunc :=
  ⟨"start", ["websocket", "email"]⟩

/-- Signature of `join` (app.py 133): `join(websocket, join_key, email)`. -/
def join_sig : PyFunc :=
  ⟨"join", ["websocket", "join_key", "email"]⟩

/-- Signature of `watch` (app.py 159): `watch(websocket, watch_key, email)`. -/
def watch_sig : PyFunc :=
  ⟨"watch", ["websocket", "watch_key", "email"]⟩

/-- A valid parsed `init` event, the three shapes `handler` dispatches on
(app.py 209-217). -/
inductive InitEvent where
  | host
  | joiner (tok : String)
  | watcher (tok : String)
deriving DecidableEq, Repr

/-- Embedding of the dispatch in `handler` (app.py 209-217): which
function is called and with how many positional arguments -
`join(websocket, event["join"])`, `watch(websocket, event["watch"])`,
`start(websocket)`. -/
def handlerDispatch : InitEvent → PyFunc × Nat
  | .joiner _ => (join_sig, 2)
  | .watcher _ => (watch_sig, 2)
  | .host => (start_sig, 1)

/-- Python positional-call semantics for functions without defaults:
calling with a number of arguments different from the parameter count
raises `TypeError` before the body runs. -/
def callOutcome (f : PyFunc) (nargs : Nat) : Except String Unit :=
  if nargs = f.params.length then .ok () else .error "TypeError"

/-- The URL-safe base64 alphabet used by `base64.urlsafe_b64encode`,
hence by `secrets.token_urlsafe`. -/
def b64urlAlphabet : String :=
  "ABCDEFGHIJKLMNOPQRSTUVWXYZabcdefghijklmnopqrstuvwxyz0123456789-_"

/-- The character for a six-bit value. -/
def sextetChar (n : Nat) : Char :=
  b64urlAlphabet.toList.getD (n % 64) 'A'

/-- Base64url of one 3-byte group: four sextets. -/
def encodeGroup (a b c : Nat) : List Char :=
  [sextetChar (a / 4),
   sextetChar (a % 4 * 16 + b / 16),
   sextetChar (b % 16 * 4 + c / 64),
   sextetChar (c % 64)]

/-- Base64url encoding with padding stripped, as `secrets.token_urlsafe`
produces (trailing partial groups keep only their significant chars). -/
def b64urlEncode : List Nat → List Char
  | [] => []
  | [a] => [sextetChar (a / 4), sextetChar (a % 4 * 16)]
  | [a, b] => [sextetChar (a / 4), sextetChar (a % 4 * 16 + b / 16), sextetChar (b % 16 * 4)]
  | a :: b :: c :: rest => encodeGroup a b c ++ b64urlEncode rest

/-- Embedding of `secrets.token_urlsafe(nbytes)` applied to the drawn
random bytes: base64url text over them. -/
def token_urlsafe (bytes : List Nat) : String :=
  ⟨b64urlEncode bytes⟩

/-- The `nbytes` argument used for both tokens (app.py 107, 110):
`secrets.token_urlsafe(12)`. -/
def tokenNBytes : Nat := 12

/-- Entropy carried by a token: its bytes are independent uniform random
bytes, 8 bits each. -/
def tokenEntropyBits : Nat := tokenNBytes * 8

/-- A terminal detector that never reports a winner, for concrete runs. -/
def noWin : List Move → Option Player := fun _ => none

/-- A terminal detector that reports player 1 as winner as soon as any
move exists, for concrete runs exercising the win broadcast. -/
def p1WinsAtOnce : List Move → Option Player := fun _ => some Player.P1

theorem eventsTo_append (c : ConnId) (a b : List Send) :
    eventsTo c (a ++ b) = eventsTo c a ++ eventsTo c b := by
  simp [eventsTo, List.filter_append]

theorem eventsTo_broadcast (c : ConnId) (l : List ConnId) (e : Event) :
    eventsTo c (broadcast l e) = List.replicate (List.count c l) e := by
  induction l with
  | nil => rfl
  | cons x xs ih =>
    simp only [broadcast, List.map_cons, eventsTo, List.filter_cons] at ih ⊢
    by_cases hx : x = c
    · subst hx
      simp [List.count_cons, ih, List.replicate_succ]
    · have hcx : ¬c = x := fun h => hx h.symm
      simp [hx, hcx, List.count_cons, ih]

theorem filter_isPlay_replicate_play (n : Nat) (p : Player) (col row : Nat) :
    (List.replicate n (Event.play p col row)).filter Event.isPlay
      = List.replicate n (Event.play p col row) := by
  induction n with
  | zero => rfl
  | succ k ih => simp [List.replicate_succ, List.filter_cons, Event.isPlay, ih]

theorem filter_isPlay_replicate_win (n : Nat) (w : Player) :
    (List.replicate n (Event.win w)).filter Event.isPlay = [] := by
  induction n with
  | zero => rfl
  | succ k ih => simp [List.replicate_succ, List.filter_cons, Event.isPlay, ih]

theorem resolve_insert_self (r : Registry) (t : String) (v : Nat) :
    (r.insert t v).resolve t = some v := by
  simp [Registry.insert, Registry.resolve, List.find?]

theorem resolve_filterOut_self (r : Registry) (t : String) :
    Registry.resolve (r.filter (fun p => p.1 ≠ t)) t = none := by
  unfold Registry.resolve
  have h : (r.filter (fun p => p.1 ≠ t)).find? (fun p => p.1 = t) = none := by
    rw [List.find?_eq_none]
    intro x hx
    have hmem := List.of_mem_filter hx
    simpa using hmem
  simp [h]

theorem hostCleanup_after_insert (jk wk : String) (sid : Nat) (rs : Regs) :
    hostCleanup jk wk ⟨rs.joinReg.insert jk sid, rs.watchReg.insert wk sid⟩
      = .ok ⟨(rs.joinReg.insert jk sid).filter (fun p => p.1 ≠ jk),
             (rs.watchReg.insert wk sid).filter (fun p => p.1 ≠ wk)⟩ := by
  simp [hostCleanup, Registry.del, resolve_insert_self, bind, Except.bind]

theorem hostRun_eq (ws : ConnId) (jk wk : String) (sid : Nat) (smtpOk : Bool)
    (loopOutcome : RunResult) (rs : Regs) :
    hostRun ws jk wk sid smtpOk loopOutcome rs
      = ⟨⟨(rs.joinReg.insert jk sid).filter (fun p => p.1 ≠ jk),
          (rs.watchReg.insert wk sid).filter (fun p => p.1 ≠ wk)⟩,
         [ws],
         if smtpOk then loopOutcome else .raised "SMTPException"⟩ := by
  cases smtpOk <;> simp [hostRun, hostCleanup_after_insert, send_email]

theorem eventsTo_single (c d : ConnId) (e : Event) :
    eventsTo c [(d, e)] = if d = c then [e] else [] := by
  by_cases h : d = c <;> simp [eventsTo, h]

theorem toPlayEvent_injective : Function.Injective Move.toPlayEvent := by
  intro m1 m2 h
  cases m1
  cases m2
  simp only [Move.toPlayEvent, Event.play.injEq] at h
  obtain ⟨h1, h2, h3⟩ := h
  simp [h1, h2, h3]

theorem eventsTo_replaySends_self (ws : ConnId) (l : List Move) :
    eventsTo ws (replaySends ws l) = l.map Move.toPlayEvent := by
  induction l with
  | nil => rfl
  | cons m ms ih =>
    simp only [replaySends, List.map_cons, eventsTo, List.filter_cons] at ih ⊢
    simp [ih]

theorem eventsTo_replaySends_other (ws c : ConnId) (l : List Move) (h : c ≠ ws) :
    eventsTo c (replaySends ws l) = [] := by
  induction l with
  | nil => rfl
  | cons m ms ih =>
    simp only [replaySends, List.map_cons, eventsTo, List.filter_cons] at ih ⊢
    have hws : ¬(ws = c) := fun hh => h hh.symm
    simp [hws, ih]

theorem pySet_add_remove (connected : List ConnId) (ws : ConnId) :
    ws ∈ pySetAdd connected ws
    ∧ (ws ∉ connected → pySetRemove (pySetAdd connected ws) ws = connected) := by
  constructor
  · unfold pySetAdd
    by_cases h : ws ∈ connected <;> simp [h]
  · intro h
    unfold pySetAdd pySetRemove
    rw [if_neg h, List.erase_append_right _ h, List.erase_cons_head, List.append_nil]

theorem sextetChar_mem (n : Nat) : sextetChar n ∈ b64urlAlphabet.toList := by
  unfold sextetChar
  have hlen : b64urlAlphabet.toList.length = 64 := rfl
  have hn : n % 64 < b64urlAlphabet.toList.length := by
    rw [hlen]
    exact Nat.mod_lt _ (by decide)
  rw [List.getD_eq_getElem _ _ hn]
  exact List.getElem_mem hn

theorem mem_b64urlEncode :
    ∀ (bytes : List Nat), ∀ ch ∈ b64urlEncode bytes, ch ∈ b64urlAlphabet.toList
  | [] => by simp [b64urlEncode]
  | [a] => by
    intro ch hch
    simp only [b64urlEncode, List.mem_cons, List.not_mem_nil, or_false] at hch
    rcases hch with h | h <;> (subst h; exact sextetChar_mem _)
  | [a, b] => by
    intro ch hch
    simp only [b64urlEncode, List.mem_cons, List.not_mem_nil, or_false] at hch
    rcases hch with h | h | h <;> (subst h; exact sextetChar_mem _)
  | a :: b :: c :: rest => by
    intro ch hch
    simp only [b64urlEncode, encodeGroup, List.mem_append, List.mem_cons,
      List.not_mem_nil, or_false] at hch
    rcases hch with (h | h | h | h) | h
    · subst h; exact sextetChar_mem _
    · subst h; exact sextetChar_mem _
    · subst h; exact sextetChar_mem _
    · subst h; exact sextetChar_mem _
    · exact mem_b64urlEncode rest ch h

/-- C1: the code contradicts the claim. When `send_email` fails during the
host path (which it does whenever the SMTP exchange fails - and the
configured host is the placeholder string "your_email_host"), there is no
exception handler around the call: the exception propagates out of
`start`, the dispatch loop never runs (the body's outcome ignores
`loopOutcome`), and the `finally` block revokes both tokens, tearing the
whole session down. This theorem evaluates the host path at the failing
input `smtpOk = false`. -/
theorem c1_email_failure_tears_down_session (ws : ConnId) (jk wk : String)
    (sid : Nat) (loopOutcome : RunResult) (rs : Regs) :
    send_email false = .error "SMTPException"
    ∧ (hostRun ws jk wk sid false loopOutcome rs).result = .raised "SMTPException"
    ∧ Registry.resolve (hostRun ws jk wk sid false loopOutcome rs).regs.joinReg jk = none
    ∧ Registry.resolve (hostRun ws jk wk sid false loopOutcome rs).regs.watchReg wk
        = none := by
  refine ⟨rfl, ?_, ?_, ?_⟩ <;> rw [hostRun_eq]
  · rfl
  · exact resolve_filterOut_self _ _
  · exact resolve_filterOut_self _ _

/-- C2: for every valid init event, `handler` dispatches to `start`,
`join` or `watch` passing exactly one fewer positional argument than the
function's parameter count (the `email` parameter is never supplied), so
under Python call semantics every dispatched connection raises TypeError
and none ever reaches the body that would create, join or watch a
session. -/
theorem c2_handler_arity_typeerror (e : InitEvent) :
    (handlerDispatch e).2 + 1 = (handlerDispatch e).1.params.length
    ∧ callOutcome (handlerDispatch e).1 (handlerDispatch e).2 = .error "TypeError" := by
  cases e <;> exact ⟨rfl, rfl⟩

/-- C6: whatever way the host's handling ends (normal loop exit, an
exception in the loop, or the `send_email` failure), both the join-token
and the watch-token are removed from their registries by the `finally`
block, and resolving either afterwards returns NotFound; the join and
watch paths only read the registries, so host exit is the sole teardown
trigger. -/
theorem c6_host_exit_revokes_both_tokens (ws : ConnId) (jk wk : String)
    (sid : Nat) (smtpOk : Bool) (loopOutcome : RunResult) (rs : Regs) (tok : String) :
    Registry.resolve (hostRun ws jk wk sid smtpOk loopOutcome rs).regs.joinReg jk = none
    ∧ Registry.resolve (hostRun ws jk wk sid smtpOk loopOutcome rs).regs.watchReg wk = none
    ∧ joinPathRegs rs tok = (rs, Registry.resolve rs.joinReg tok)
    ∧ watchPathRegs rs tok = (rs, Registry.resolve rs.watchReg tok) := by
  refine ⟨?_, ?_, rfl, rfl⟩ <;> rw [hostRun_eq]
  · exact resolve_filterOut_self _ _
  · exact resolve_filterOut_self _ _

/-- C7 counterexample: revocation is implemented by `del d[token]`, and on
a registry not containing the token it raises KeyError instead of being a
no-op: the claim fails at the empty registry and token "x". -/
theorem c7_counterexample_absent_revoke_raises :
    Registry.del ([] : Registry) "x" = .error "KeyError" := rfl

/-- C7 amended: revoking a present token removes its mapping, after which
it no longer resolves; but revocation is not idempotent - revoking an
absent token raises KeyError rather than leaving the registry unchanged
without error. -/
theorem c7_revoke_removes_but_raises_on_absent (r : Registry) (t : String) :
    ((Registry.resolve r t).isSome →
        Registry.del r t = .ok (r.filter (fun p => p.1 ≠ t))
        ∧ Registry.resolve (r.filter (fun p => p.1 ≠ t)) t = none)
    ∧ (Registry.resolve r t = none → Registry.del r t = .error "KeyError") := by
  constructor
  · intro h
    exact ⟨by simp [Registry.del, h], resolve_filterOut_self r t⟩
  · intro h
    simp [Registry.del, h]

/-- Witness for the amended C7 at a one-entry registry: deleting the bound
token succeeds and it stops resolving; deleting an absent token raises. -/
theorem c7_witness :
    (Registry.del ([("a", 1)] : Registry) "a"
        = .ok (List.filter (fun p => p.1 ≠ "a") ([("a", 1)] : Registry))
      ∧ Registry.resolve (List.filter (fun p => p.1 ≠ "a") ([("a", 1)] : Registry)) "a"
          = none)
    ∧ Registry.del ([("a", 1)] : Registry) "b" = .error "KeyError" :=
  ⟨(c7_revoke_removes_but_raises_on_absent [("a", 1)] "a").1 (by decide),
   (c7_revoke_removes_but_raises_on_absent [("a", 1)] "b").2 (by decide)⟩

/-- C8 counterexample: the claim fails for the host role. When the host's
handling ends (here: normal close of the session with host connection 0),
`start`'s `finally` only deletes the two tokens; the host's handle is
still in the session's connection set, so it was not removed. -/
theorem c8_counterexample_host_never_removed :
    0 ∈ (hostRun 0 "j" "w" 0 true RunResult.normal ⟨[], []⟩).connected := by
  rw [hostRun_eq]
  simp

/-- C8 amended: for the joiner and watcher roles the handle is added to
the connection set when the role is established and removed
unconditionally - for any outcome of the handling, normal or exceptional
- when the handling ends; the host's handle, by contrast, is placed in
the set at creation and never removed: the whole session is dropped via
token revocation instead. -/
theorem c8_join_watch_removed_host_kept (connected : List ConnId) (ws : ConnId)
    (outcome : RunResult) (jk wk : String) (sid : Nat) (smtpOk : Bool) (rs : Regs) :
    ws ∈ (joinPathConnected connected ws outcome).1
    ∧ ws ∈ (watchPathConnected connected ws outcome).1
    ∧ (ws ∉ connected → (joinPathConnected connected ws outcome).2 = connected)
    ∧ (ws ∉ connected → (watchPathConnected connected ws outcome).2 = connected)
    ∧ (hostRun ws jk wk sid smtpOk outcome rs).connected = [ws] := by
  refine ⟨(pySet_add_remove connected ws).1, (pySet_add_remove connected ws).1,
    fun h => (pySet_add_remove connected ws).2 h,
    fun h => (pySet_add_remove connected ws).2 h, ?_⟩
  rw [hostRun_eq]

/-- Witness for the amended C8: a joiner and a watcher with handle 0 on a
session whose set held only handle 5 leave the set as they found it. -/
theorem c8_witness :
    (0 : ConnId) ∉ ([5] : List ConnId)
    ∧ (joinPathConnected [5] 0 RunResult.normal).2 = [5]
    ∧ (watchPathConnected [5] 0 RunResult.normal).2 = [5] :=
  ⟨by decide,
   (c8_join_watch_removed_host_kept [5] 0 RunResult.normal "j" "w" 0 true
      ⟨[], []⟩).2.2.1 (by decide),
   (c8_join_watch_removed_host_kept [5] 0 RunResult.normal "j" "w" 0 true
      ⟨[], []⟩).2.2.2.1 (by decide)⟩

/-- C9 counterexample: the tokens are produced by
`secrets.token_urlsafe(12)`, i.e. from 12 random bytes, which is 96 bits
of entropy - the claim's "at least 128 bits" is false. -/
theorem c9_counterexample_only_96_bits :
    tokenEntropyBits = 96 ∧ ¬128 ≤ tokenEntropyBits := by
  decide

/-- C9 amended: every issued token is URL-safe (all its characters come
from the base64url alphabet) and carries 96 bits of entropy, exactly
meeting the stated 96-bit minimum for infeasible guessing, but not 128
bits. -/
theorem c9_tokens_urlsafe_96_bits (bytes : List Nat) :
    tokenEntropyBits = 96
    ∧ 96 ≤ tokenEntropyBits
    ∧ ∀ ch ∈ (token_urlsafe bytes).toList, ch ∈ b64urlAlphabet.toList := by
  refine ⟨rfl, by decide, ?_⟩
  intro ch hch
  have hmem : ch ∈ b64urlEncode bytes := by
    simpa [token_urlsafe, String.toList] using hch
  exact mem_b64urlEncode bytes ch hmem

/-- Witness for the amended C9: the token drawn from twelve zero bytes
has 'A' among its characters, and 'A' is in the URL-safe alphabet. -/
theorem c9_witness :
    'A' ∈ (token_urlsafe (List.replicate 12 0)).toList
    ∧ 'A' ∈ b64urlAlphabet.toList :=
  ⟨by decide,
   (c9_tokens_urlsafe_96_bits (List.replicate 12 0)).2.2 'A' (by decide)⟩

/-- C10: in the dispatch loop, a message that `json.loads` rejects, or
whose parsed type is not "play", raises an uncaught exception (the only
handler catches the game's RuntimeError), terminating that connection's
handling with a crash rather than an "error" event; when that connection
is the host's, the exception ends `start`'s body, so both tokens are
revoked and the session is torn down. -/
theorem c10_nonplay_message_crashes (applyFn : ApplyFn) (g : Connect4)
    (player : Player) (connected : List ConnId) (self : ConnId)
    (ty : String) (col : Option Nat) (ws : ConnId) (jk wk : String)
    (sid : Nat) (rs : Regs) (e : String) :
    playStep applyFn g player connected self .invalidJson
        = .crash g "json.JSONDecodeError"
    ∧ (ty ≠ "play" →
        playStep applyFn g player connected self (.event ty col)
          = .crash g "AssertionError")
    ∧ (hostRun ws jk wk sid true (.raised e) rs).result = .raised e
    ∧ Registry.resolve (hostRun ws jk wk sid true (.raised e) rs).regs.joinReg jk = none
    ∧ Registry.resolve (hostRun ws jk wk sid true (.raised e) rs).regs.watchReg wk
        = none := by
  refine ⟨rfl, ?_, ?_, ?_, ?_⟩
  · intro hty
    simp [playStep, hty]
  · rw [hostRun_eq]
    rfl
  · rw [hostRun_eq]
    exact resolve_filterOut_self _ _
  · rw [hostRun_eq]
    exact resolve_filterOut_self _ _

/-- Witness for C10: a "chat" message crashes the loop with
AssertionError. -/
theorem c10_witness :
    ("chat" : String) ≠ "play"
    ∧ playStep (Connect4.playMove noWin) Connect4.new .P1 [0] 0 (.event "chat" none)
        = .crash Connect4.new "AssertionError" :=
  ⟨by decide,
   (c10_nonplay_message_crashes (Connect4.playMove noWin) Connect4.new .P1 [0] 0
      "chat" none 0 "j" "w" 0 ⟨[], []⟩ "x").2.1 (by decide)⟩

/-- C4: `replay` iterates over the snapshot of the history it is given
and sends every move, in original order, each as a "play" event, to the
newly-registered connection only; all of these precede whatever the
connection later receives live, and (the history being a value here, as
the code's `copy()` arranges) each historical move is delivered exactly
once - event counts match move counts. -/
theorem c4_replay_full_history_then_live (ws : ConnId) (snapshot : List Move)
    (liveOut : List Send) (c : ConnId) :
    eventsTo ws (replaySends ws snapshot ++ liveOut)
        = snapshot.map Move.toPlayEvent ++ eventsTo ws liveOut
    ∧ (c ≠ ws → eventsTo c (replaySends ws snapshot) = [])
    ∧ (∀ m : Move,
        List.count m.toPlayEvent (snapshot.map Move.toPlayEvent)
          = List.count m snapshot)
    ∧ (∀ e ∈ snapshot.map Move.toPlayEvent, e.isPlay = true) := by
  refine ⟨?_, ?_, ?_, ?_⟩
  · rw [eventsTo_append, eventsTo_replaySends_self]
  · intro h
    exact eventsTo_replaySends_other ws c snapshot h
  · intro m
    exact List.count_map_of_injective snapshot Move.toPlayEvent toPlayEvent_injective m
  · intro e he
    rcases List.mem_map.mp he with ⟨m, _, rfl⟩
    rfl

/-- Witness for C4: a one-move history replayed to connection 0 sends
nothing to connection 1, and its replayed event is a "play" event. -/
theorem c4_witness :
    (1 : ConnId) ≠ 0
    ∧ eventsTo 1 (replaySends 0 [⟨Player.P1, 3, 0⟩]) = []
    ∧ Event.isPlay (Move.toPlayEvent ⟨Player.P1, 3, 0⟩) = true :=
  ⟨by decide,
   (c4_replay_full_history_then_live 0 [⟨Player.P1, 3, 0⟩] [] 1).2.1 (by decide),
   (c4_replay_full_history_then_live 0 [⟨Player.P1, 3, 0⟩] [] 1).2.2.2
     (Move.toPlayEvent ⟨Player.P1, 3, 0⟩) (by decide)⟩

/-- C5: a move submission is rejected by the game iff the spec's
conditions hold (game already won, wrong turn, or invalid / full column),
and on any rejection the dispatch loop sends one private "error" event to
the submitting connection only, broadcasts nothing, leaves the game state
unchanged and continues the loop. -/
theorem c5_rejection_iff_and_private_error (detectWin : List Move → Option Player)
    (g : Connect4) (player : Player) (column : Nat) :
    ((∃ msg, Connect4.playMove detectWin g player column = .error msg)
        ↔ rejectionCondition g player column)
    ∧ ∀ msg (connected : List ConnId) (self : ConnId),
        Connect4.playMove detectWin g player column = .error msg →
          playStep (Connect4.playMove detectWin) g player connected self
              (.event "play" (some column))
            = .cont g [(self, .error msg)] := by
  constructor
  · unfold Connect4.playMove rejectionCondition
    by_cases h1 : g.winner.isSome <;> by_cases h2 : player ≠ g.turn <;>
      by_cases h3 : 7 ≤ column <;> by_cases h4 : 6 ≤ g.columnHeight column <;>
      simp [h1, h2, h3, h4]
  · intro msg connected self h
    simp [playStep, h]

/-- Witness for C5: player 2 moving first is rejected for wrong turn, and
on a session with connections 0 and 1 only the submitter (connection 1)
gets the error event while the state is unchanged. -/
theorem c5_witness :
    rejectionCondition Connect4.new .P2 0
    ∧ Connect4.playMove noWin Connect4.new .P2 0 = .error "It is not your turn."
    ∧ playStep (Connect4.playMove noWin) Connect4.new .P2 [0, 1] 1
        (.event "play" (some 0))
      = .cont Connect4.new [(1, .error "It is not your turn.")] :=
  ⟨(c5_rejection_iff_and_private_error noWin Connect4.new .P2 0).1.mp ⟨_, rfl⟩,
   rfl,
   (c5_rejection_iff_and_private_error noWin Connect4.new .P2 0).2
     "It is not your turn." [0, 1] 1 rfl⟩

/-- C3: over any serialized sequence of move submissions on one session,
every connection in the session's connection set for the whole sequence
receives, among the loop's sends, exactly the accepted moves as "play"
events, one each and in acceptance order; and any accepted move that
leaves the game with a winner is broadcast as its "play" event followed
by a "win" event naming the winner, both to every connection in the set. -/
theorem c3_accepted_moves_broadcast_in_order (applyFn : ApplyFn)
    (connected : List ConnId) (hnd : connected.Nodup) (c : ConnId)
    (hc : c ∈ connected) (g : Connect4) (subs : List Submission) :
    (eventsTo c (sessionRun applyFn connected g subs).2).filter Event.isPlay
        = (acceptedMoves applyFn g subs).map Move.toPlayEvent
    ∧ ∀ (g1 : Connect4) (player : Player) (self : ConnId) (column row : Nat)
        (g2 : Connect4) (w : Player),
        applyFn g1 player column = .ok (row, g2) → g2.winner = some w →
          playStep applyFn g1 player connected self (.event "play" (some column))
            = .cont g2 (broadcast connected (.play player column row)
                ++ broadcast connected (.win w)) := by
  have hcount := List.count_eq_one_of_mem hnd hc
  constructor
  · induction subs generalizing g with
    | nil => rfl
    | cons s rest ih =>
      cases happly : applyFn g s.role s.column with
      | error msg =>
        have hstep : playStep applyFn g s.role connected s.conn
            (.event "play" (some s.column)) = .cont g [(s.conn, Event.error msg)] := by
          simp [playStep, happly]
        simp only [sessionRun, hstep, acceptedMoves, happly]
        rw [eventsTo_append, List.filter_append, eventsTo_single]
        by_cases hsc : s.conn = c
        · simp only [hsc, if_pos rfl, List.filter_cons]
          simp [Event.isPlay, ih g]
        · simp only [if_neg hsc, List.filter_nil, List.nil_append]
          exact ih g
      | ok pr =>
        obtain ⟨row, g2⟩ := pr
        cases hwin : g2.winner with
        | none =>
          have hstep : playStep applyFn g s.role connected s.conn
              (.event "play" (some s.column))
              = .cont g2 (broadcast connected (.play s.role s.column row)) := by
            simp [playStep, happly, hwin]
          simp only [sessionRun, hstep, acceptedMoves, happly]
          rw [eventsTo_append, List.filter_append, eventsTo_broadcast, hcount]
          simp only [List.replicate_one, List.filter_cons]
          simp [Event.isPlay, Move.toPlayEvent, ih g2]
        | some w =>
          have hstep : playStep applyFn g s.role connected s.conn
              (.event "play" (some s.column))
              = .cont g2 (broadcast connected (.play s.role s.column row)
                  ++ broadcast connected (.win w)) := by
            simp [playStep, happly, hwin]
          simp only [sessionRun, hstep, acceptedMoves, happly]
          rw [List.append_assoc, eventsTo_append, List.filter_append,
            eventsTo_broadcast, hcount, eventsTo_append, List.filter_append,
            eventsTo_broadcast, hcount, filter_isPlay_replicate_win]
          simp only [List.replicate_one, List.filter_cons, List.nil_append]
          simp [Event.isPlay, Move.toPlayEvent, ih g2]
  · intro g1 player self column row g2 w ha hw
    simp [playStep, ha, hw]

/-- Witness for C3: one accepted move by player 1 on a session whose set
is the single connection 0, with a detector declaring an immediate win:
the connection's play events are exactly the accepted move, and the step
broadcasts the play event followed by the win event. -/
theorem c3_witness :
    ([0] : List ConnId).Nodup
    ∧ (0 : ConnId) ∈ ([0] : List ConnId)
    ∧ (eventsTo 0 (sessionRun (Connect4.playMove p1WinsAtOnce) [0] Connect4.new
          [⟨0, Player.P1, 3⟩]).2).filter Event.isPlay
        = (acceptedMoves (Connect4.playMove p1WinsAtOnce) Connect4.new
            [⟨0, Player.P1, 3⟩]).map Move.toPlayEvent
    ∧ playStep (Connect4.playMove p1WinsAtOnce) Connect4.new Player.P1 [0] 0
          (.event "play" (some 3))
        = .cont ⟨[⟨Player.P1, 3, 0⟩], some Player.P1⟩
            (broadcast [0] (.play Player.P1 3 0) ++ broadcast [0] (.win Player.P1)) := by
  have h := c3_accepted_moves_broadcast_in_order (Connect4.playMove p1WinsAtOnce)
    [0] (by decide) 0 (by decide) Connect4.new [⟨0, Player.P1, 3⟩]
  exact ⟨by decide, by decide, h.1,
    h.2 Connect4.new Player.P1 0 3 0 ⟨[⟨Player.P1, 3, 0⟩], some Player.P1⟩
      Player.P1 rfl rfl⟩

end Connect4Server
